import Mathlib

/-!
Verification of the catalog mutation and query engine of the tg_webapp
backend (`backend/api.py`, data model in `backend/models.py`).

The embedding models:
* Python scalar/JSON values as the inductive `JVal` (Python `None` is `JVal.jnull`);
* the lenient coercion helpers `to_bool`, `to_int_or_none`, `to_float`,
  `parse_json_field` and the body normalizer `parse_json_or_form`;
* `slugify` over Lean `String` (character classes are modelled at ASCII
  fidelity: `str.strip`/`re \s` use the six ASCII whitespace characters and
  `str.lower`/`str.upper` map only `A..Z`/`a..z`; every character outside
  `[a-z0-9-]` is squashed to a hyphen by the slug regex exactly as in the
  source, so this does not affect the stated properties);
* the store (PostgreSQL via SQLAlchemy) as explicit lists of category and
  product records with autoincrement counters; each endpoint is a function
  from store and request to a result together with the post store.  An
  uncaught Python exception surfaces as HTTP 500 (`HErr` with status 500),
  `HTTPException(422/404/409/415)` keep their status codes.  A raise before
  `session.commit`, or a commit failure followed by rollback, leaves the
  store unchanged, which the definitions make explicit by returning the
  input store on every error path.
-/

namespace TgShop

/-! ## Character helpers (ASCII fragment of Python's str methods and re classes) -/

/-- ASCII whitespace as matched by Python's `str.strip()` and the regex
class `\s` (space, tab, newline, carriage return, vertical tab, form feed). -/
def isSpaceCh (c : Char) : Bool :=
  decide (c.toNat = 32 ∨ c.toNat = 9 ∨ c.toNat = 10 ∨ c.toNat = 13 ∨
          c.toNat = 11 ∨ c.toNat = 12)

/-- Characters kept by the slug regex `[^a-z0-9\-]+` in `api.py`:
lower-case ASCII letters, digits, hyphen. -/
def isSlugChar (c : Char) : Bool :=
  decide ((97 ≤ c.toNat ∧ c.toNat ≤ 122) ∨ (48 ≤ c.toNat ∧ c.toNat ≤ 57) ∨
          c.toNat = 45)

/-- Test for the hyphen character. -/
def isHyphenCh (c : Char) : Bool := c == '-'

/-- ASCII decimal digit test. -/
def isDigitCh (c : Char) : Bool := decide (48 ≤ c.toNat ∧ c.toNat ≤ 57)

/-- Python `str.lower` on the ASCII range: maps `A..Z` to `a..z`. -/
def pyLowerCh (c : Char) : Char :=
  if 65 ≤ c.toNat ∧ c.toNat ≤ 90 then Char.ofNat (c.toNat + 32) else c

/-- Python `str.upper` on the ASCII range: maps `a..z` to `A..Z`. -/
def pyUpperCh (c : Char) : Char :=
  if 97 ≤ c.toNat ∧ c.toNat ≤ 122 then Char.ofNat (c.toNat - 32) else c

/-- Drop matching characters from the end of a list. -/
def dropEnd (p : Char → Bool) (l : List Char) : List Char :=
  (l.reverse.dropWhile p).reverse

/-- Strip matching characters from both ends, as Python `str.strip`/`str.strip("-")`. -/
def stripBoth (p : Char → Bool) (l : List Char) : List Char :=
  dropEnd p (l.dropWhile p)

/-- Python `str.strip()` on a Lean string (ASCII whitespace). -/
def pyStripS (s : String) : String := ⟨stripBoth isSpaceCh s.data⟩

/-- Python `str.lower()` on a Lean string (ASCII fragment). -/
def pyLowerS (s : String) : String := ⟨s.data.map pyLowerCh⟩

/-- Python `str.upper()` on a Lean string (ASCII fragment). -/
def pyUpperS (s : String) : String := ⟨s.data.map pyUpperCh⟩

/-- Python `str.replace(",", ".")`, character-wise. -/
def replaceCommaDot (s : String) : String :=
  ⟨s.data.map (fun c => if c == ',' then '.' else c)⟩

/-- Numeric value of a list of ASCII digits, most significant first. -/
def natOfDigits (l : List Char) : Nat :=
  l.foldl (fun a c => a * 10 + (c.toNat - 48)) 0

/-- Python `int(str)` on the sign-and-digits fragment of its grammar:
surrounding whitespace is stripped, then an optional sign and a non-empty
digit run.  Inputs outside this fragment are treated as unparsable
(`ValueError`, giving `none`). -/
def parseInt? (s : String) : Option Int :=
  let cs := stripBoth isSpaceCh s.data
  let (sg, ds) : Int × List Char :=
    match cs with
    | '-' :: rest => (-1, rest)
    | '+' :: rest => (1, rest)
    | _ => (1, cs)
  if ds ≠ [] ∧ ds.all isDigitCh then some (sg * (natOfDigits ds : Int)) else none

/-- Python `float(str)` on the decimal fragment of its grammar: optional
sign, digits, optional point and fraction digits, with at least one digit
overall.  Exponents and the `inf`/`nan` spellings are treated as unparsable
(`ValueError`, giving `none`).  The value is an exact rational. -/
def parseFloat? (s : String) : Option ℚ :=
  let cs := s.data
  let (sg, rest0) : ℚ × List Char :=
    match cs with
    | '-' :: rest => (-1, rest)
    | '+' :: rest => (1, rest)
    | _ => (1, cs)
  let ip := rest0.takeWhile isDigitCh
  match rest0.dropWhile isDigitCh with
  | [] => if ip = [] then none else some (sg * (natOfDigits ip : ℚ))
  | '.' :: frac =>
      if frac.all isDigitCh ∧ (ip ≠ [] ∨ frac ≠ []) then
        some (sg * ((natOfDigits ip : ℚ) +
          (natOfDigits frac : ℚ) / ((10 : ℚ) ^ frac.length)))
      else none
  | _ => none

/-- Truncation of a rational toward zero, as Python `int(float)`. -/
def ratTrunc (q : ℚ) : Int := Int.tdiv q.num (q.den : Int)

/-! ## Python/JSON values -/

/-- Decoded request-body values: Python `None`/bool/number/str/list/dict.
Numbers are carried as exact rationals (the service stores money as exact
decimals; no claim depends on binary float rounding). -/
inductive JVal where
  | jnull : JVal
  | jbool : Bool → JVal
  | jnum : ℚ → JVal
  | jstr : String → JVal
  | jarr : List JVal → JVal
  | jobj : List (String × JVal) → JVal

/-- Python truthiness of a decoded value (`bool(v)`). -/
def jTruthy : JVal → Bool
  | .jnull => false
  | .jbool b => b
  | .jnum q => decide (q ≠ 0)
  | .jstr s => decide (s ≠ "")
  | .jarr xs => !xs.isEmpty
  | .jobj fs => !fs.isEmpty

/-- Python `x or d` for decoded values: the left operand if truthy, else `d`. -/
def pyOrJ (v d : JVal) : JVal := if jTruthy v then v else d

/-- Python `str(v)` for decoded values.  Strings map to themselves, `None`
and booleans to their Python spellings, integral numbers to their decimal
form; the rendering of non-integral numbers and of list/dict values is
modelled opaquely (no endpoint behaviour in scope depends on those
renderings beyond their being non-empty and non-numeric). -/
def pyStrOf : JVal → String
  | .jnull => "None"
  | .jbool true => "True"
  | .jbool false => "False"
  | .jnum q => if q.den = 1 then toString q.num else toString q.num ++ "/" ++ toString q.den
  | .jstr s => s
  | .jarr _ => "[...]"
  | .jobj _ => "\x7b...\x7d"

/-- Attribute access `v.strip()` used by the `(raw.get(k) or "").strip()`
pattern in `api.py`: the `or` collapses falsy values to `""`; a truthy
non-string has no `strip` attribute, so Python raises `AttributeError`
(modelled as `none`). -/
def pyOrStr? (v : JVal) : Option String :=
  if jTruthy v then
    match v with
    | .jstr t => some t
    | _ => none
  else some ""

/-! ## Lenient coercions (`api.py` lines 97-126) -/

/-- Coercion `to_bool` from `api.py`: booleans pass through, `None` is
false, anything else is true iff its lower-cased stripped string form is
one of `1`, `true`, `on`, `yes`. -/
def to_bool : JVal → Bool
  | .jbool b => b
  | .jnull => false
  | v =>
      let t := pyLowerS (pyStripS (pyStrOf v))
      t == "1" || t == "true" || t == "on" || t == "yes"

/-- Coercion `to_int_or_none` from `api.py`: `None` or a blank string form
give `none`; otherwise `int(v)` — integer parse for strings, truncation for
numbers, 0/1 for booleans — with any failure caught and mapped to `none`. -/
def to_int_or_none : JVal → Option Int
  | .jnull => none
  | v =>
      if pyStripS (pyStrOf v) = "" then none
      else
        match v with
        | .jstr t => parseInt? t
        | .jnum q => some (ratTrunc q)
        | .jbool b => some (if b then 1 else 0)
        | _ => none

/-- Coercion `to_float` from `api.py`: numeric values (including booleans,
which are ints in Python) pass through; otherwise the string form is
stripped, commas become dots, a blank parses as 0, and an unparsable string
raises `ValueError` (modelled as `none`; the callers do not catch it). -/
def to_float : JVal → Option ℚ
  | .jnum q => some q
  | .jbool b => some (if b then 1 else 0)
  | v =>
      let t := replaceCommaDot (pyStripS (pyStrOf v))
      if t = "" then some 0 else parseFloat? t

/-! ## JSON text parsing (stdlib `json.loads`, used by `parse_json_field`) -/

/-- JSON whitespace. -/
def isJsonWs (c : Char) : Bool :=
  decide (c.toNat = 32 ∨ c.toNat = 9 ∨ c.toNat = 10 ∨ c.toNat = 13)

/-- Opening curly bracket character (written by code point to keep braces
out of literals). -/
def lbraceCh : Char := Char.ofNat 123

/-- Closing curly bracket character. -/
def rbraceCh : Char := Char.ofNat 125

/-- Parse of a JSON string literal body (no escape sequences modelled):
returns the body and the input after the closing quote. -/
def parseJStr? (cs : List Char) : Option (String × List Char) :=
  let body := cs.takeWhile (fun c => !(c == '"') && !(c == '\\'))
  match cs.drop body.length with
  | '"' :: rest => some (⟨body⟩, rest)
  | _ => none

/-- Parse of a JSON number (optional minus, digits, optional fraction;
exponents are outside the modelled fragment). -/
def parseJNum? (cs : List Char) : Option (JVal × List Char) :=
  let (sg, rest0) : Int × List Char :=
    match cs with
    | '-' :: r => (-1, r)
    | _ => (1, cs)
  let ip := rest0.takeWhile isDigitCh
  if ip = [] then none
  else
    match rest0.dropWhile isDigitCh with
    | '.' :: r2 =>
        let frac := r2.takeWhile isDigitCh
        if frac = [] then none
        else some (.jnum ((sg : ℚ) * ((natOfDigits ip : ℚ) +
               (natOfDigits frac : ℚ) / ((10:ℚ) ^ frac.length))),
             r2.drop frac.length)
    | r2 => some (.jnum ((sg * (natOfDigits ip : Int) : Int) : ℚ), r2)

mutual

/-- Fuel-bounded recursive descent for `json.loads`, returning the value and
the remaining input.  Models the core JSON grammar (null, booleans, decimal
numbers without exponents, strings without escape sequences, arrays,
objects); text outside this fragment is treated as a parse failure. -/
def parseJVal (fuel : Nat) (cs : List Char) : Option (JVal × List Char) :=
  match fuel with
  | 0 => none
  | fuel + 1 =>
    match cs with
    | 'n' :: 'u' :: 'l' :: 'l' :: rest => some (.jnull, rest)
    | 't' :: 'r' :: 'u' :: 'e' :: rest => some (.jbool true, rest)
    | 'f' :: 'a' :: 'l' :: 's' :: 'e' :: rest => some (.jbool false, rest)
    | '"' :: rest =>
        (match parseJStr? rest with
         | some (s, rest2) => some (.jstr s, rest2)
         | none => none)
    | '[' :: rest =>
        (match rest.dropWhile isJsonWs with
         | ']' :: rest2 => some (.jarr [], rest2)
         | rest2 => parseJItems fuel rest2 [])
    | c :: rest =>
        if c == lbraceCh then
          (match rest.dropWhile isJsonWs with
           | c2 :: rest2 =>
               if c2 == rbraceCh then some (.jobj [], rest2)
               else parseJFields fuel (c2 :: rest2) []
           | [] => none)
        else parseJNum? cs
    | [] => none

/-- Comma-separated array items for `parseJVal`. -/
def parseJItems (fuel : Nat) (cs : List Char) (acc : List JVal) :
    Option (JVal × List Char) :=
  match fuel with
  | 0 => none
  | fuel + 1 =>
    match parseJVal fuel (cs.dropWhile isJsonWs) with
    | none => none
    | some (v, rest) =>
      match rest.dropWhile isJsonWs with
      | ',' :: rest2 => parseJItems fuel rest2 (acc ++ [v])
      | ']' :: rest2 => some (.jarr (acc ++ [v]), rest2)
      | _ => none

/-- Comma-separated object members for `parseJVal`. -/
def parseJFields (fuel : Nat) (cs : List Char) (acc : List (String × JVal)) :
    Option (JVal × List Char) :=
  match fuel with
  | 0 => none
  | fuel + 1 =>
    match cs.dropWhile isJsonWs with
    | '"' :: rest =>
      (match parseJStr? rest with
       | none => none
       | some (k, rest2) =>
         match rest2.dropWhile isJsonWs with
         | ':' :: rest3 =>
           (match parseJVal fuel (rest3.dropWhile isJsonWs) with
            | none => none
            | some (v, rest4) =>
              match rest4.dropWhile isJsonWs with
              | ',' :: rest5 => parseJFields fuel rest5 (acc ++ [(k, v)])
              | c :: rest5 =>
                  if c == rbraceCh then some (.jobj (acc ++ [(k, v)]), rest5)
                  else none
              | [] => none)
         | _ => none)
    | _ => none

end

/-- Python `json.loads` on a string: parse one value surrounded by optional
whitespace, failing on trailing garbage. -/
def json_loads? (s : String) : Option JVal :=
  match parseJVal (s.data.length + 1) (s.data.dropWhile isJsonWs) with
  | some (v, rest) => if rest.dropWhile isJsonWs = [] then some v else none
  | none => none

/-- Helper `parse_json_field` from `api.py`: `None` or the empty string give
`None`; lists and dicts pass through; any other value has its string form
parsed as JSON, with parse failures caught and mapped to `None`. -/
def parse_json_field (v : JVal) : Option JVal :=
  match v with
  | .jnull => none
  | .jstr "" => none
  | .jarr xs => some (.jarr xs)
  | .jobj fs => some (.jobj fs)
  | v => json_loads? (pyStrOf v)

/-! ## Slugify (`api.py` lines 75-82) -/

/-- Replacement of each maximal run of characters satisfying `p` by the
single character `r`, the effect of `re.sub(cls + "+", r, s)` for a
character class `cls`.  The flag tracks whether the previous character was
inside a run. -/
def subRunsAux (p : Char → Bool) (r : Char) : List Char → Bool → List Char
  | [], _ => []
  | c :: cs, inRun =>
      if p c then
        if inRun then subRunsAux p r cs true
        else r :: subRunsAux p r cs true
      else c :: subRunsAux p r cs false

/-- Replacement of maximal `p`-runs by one `r` (see `subRunsAux`). -/
def subRuns (p : Char → Bool) (r : Char) (s : List Char) : List Char :=
  subRunsAux p r s false

/-- Core of `slugify`, over character lists:
strip and lower-case, collapse whitespace runs to a hyphen (`re.sub("\s+", "-", v)`),
collapse runs of non-`[a-z0-9-]` characters to a hyphen (`_slug_re.sub("-", v)`),
collapse hyphen runs (`re.sub("-\x7b2,\x7d", "-", v)` — replacing every run,
including length-1 runs, by one hyphen is extensionally the same), and strip
hyphens from both ends. -/
def slugifyChars (v : List Char) : List Char :=
  let v1 := (stripBoth isSpaceCh v).map pyLowerCh
  let v2 := subRuns isSpaceCh '-' v1
  let v3 := subRuns (fun c => !(isSlugChar c)) '-' v2
  let v4 := subRuns isHyphenCh '-' v3
  stripBoth isHyphenCh v4

/-- Identifier slugger `slugify` from `api.py`: normalize free text to a
URL-safe token, with the fixed fallback `"item"` when nothing survives. -/
def slugify (value : String) : String :=
  match slugifyChars value.data with
  | [] => "item"
  | l => ⟨l⟩

/-! ## Errors, request bodies and normalization (`api.py` lines 84-95) -/

/-- Result of `raise HTTPException(status, detail)`, and of uncaught Python
exceptions (status 500, FastAPI's generic internal server error).  Per the spec
taxonomy: 422 is Validation, 404 NotFound, 409 Conflict, 415
UnsupportedEncoding, 401/403 Unauthenticated/Forbidden. -/
structure HErr where
  status : Nat
  detail : String
deriving DecidableEq

/-- Status of an error outcome, `none` on success. -/
def errStatus? {α : Type} : Except HErr α → Option Nat
  | .error e => some e.status
  | .ok _ => none

/-- Successful value of an outcome, `none` on error. -/
def okVal? {α : Type} : Except HErr α → Option α
  | .ok a => some a
  | .error _ => none

/-- Normalized request field map: the Python dict produced by
`parse_json_or_form` (keys are unique in any dict the code builds). -/
abbrev Raw := List (String × JVal)

/-- Request body as classified by its content type: a JSON body decoding to
`v`, a form body (multipart or url-encoded) carrying string fields, or any
other content type. -/
inductive ReqBody where
  | jsonBody : JVal → ReqBody
  | formBody : List (String × String) → ReqBody
  | otherBody : ReqBody

/-- Input normalizer `parse_json_or_form` from `api.py`: a JSON body must
decode to an object (else 422 "JSON payload must be an object"); a form
body keeps the allow-listed fields that are present, as strings; any other
content type is 415 Unsupported Media Type.  Keys outside `allowed_fields`
are dropped. -/
def parse_json_or_form (body : ReqBody) (allowed_fields : List String) :
    Except HErr Raw :=
  match body with
  | .jsonBody (.jobj fs) => .ok (fs.filter (fun kv => allowed_fields.contains kv.1))
  | .jsonBody _ => .error ⟨422, "JSON payload must be an object"⟩
  | .formBody fields =>
      .ok ((allowed_fields.filter (fun k => (fields.lookup k).isSome)).map
        (fun k => (k, JVal.jstr ((fields.lookup k).getD ""))))
  | .otherBody => .error ⟨415, "Unsupported Media Type"⟩

/-- Python `raw.get(k)`: the stored value, or `None` when the key is absent. -/
def rawGet (raw : Raw) (k : String) : JVal := (raw.lookup k).getD .jnull

/-- Python `raw.get(k, d)` with an explicit default. -/
def rawGetD (raw : Raw) (k : String) (d : JVal) : JVal := (raw.lookup k).getD d

/-- Python `k in raw`. -/
def rawHas (raw : Raw) (k : String) : Bool := (raw.lookup k).isSome

/-! ## Data model (`backend/models.py`) and store -/

/-- Category record: surrogate id, display name, unique slug, optional
parent reference into the same table. -/
structure Category where
  id : Int
  name : String
  slug : String
  parent_id : Option Int
deriving DecidableEq

/-- Product record.  `price` is exact decimal (`Numeric(12,2)`), modelled as
a rational; `images`/`attributes` are JSON columns (SQL NULL is `none`). -/
structure Product where
  id : Int
  title : String
  slug : String
  description : Option String
  price : ℚ
  currency : String
  stock : Int
  is_active : Bool
  images : Option JVal
  attributes : Option JVal
  category_id : Int

/-- The transactional record store: committed category and product rows plus
the autoincrement counters that assign surrogate ids. -/
structure Store where
  categories : List Category
  products : List Product
  nextCatId : Int
  nextProdId : Int

/-- Invariant: no category is its own parent. -/
def ParentInv (s : Store) : Prop :=
  ∀ c ∈ s.categories, c.parent_id ≠ some c.id

/-- Well-formedness of the autoincrement counter: every committed category
id is below the next id to be assigned. -/
def CatIdsBelow (s : Store) : Prop :=
  ∀ c ∈ s.categories, c.id < s.nextCatId

/-! ## Category endpoints (`api.py` lines 296-384) -/

/-- Endpoint `create_category`: normalize `name`/`slug` via the
`(raw.get(k) or "").strip()` pattern (a truthy non-string raises
`AttributeError`, an uncaught 500), parse `parent_id` leniently, then check
name and slug non-blank (422), check an explicitly given parent exists
(422), and commit; a duplicate slug violates the unique constraint at
commit time and maps to 409. -/
def create_category (s : Store) (raw : Raw) : Except HErr Category × Store :=
  match pyOrStr? (rawGet raw "name") with
  | none => (.error ⟨500, "AttributeError"⟩, s)
  | some name0 =>
    match pyOrStr? (rawGet raw "slug") with
    | none => (.error ⟨500, "AttributeError"⟩, s)
    | some slug0 =>
      let name := pyStripS name0
      let slug := pyStripS slug0
      let parent_id := to_int_or_none (rawGet raw "parent_id")
      if name = "" then (.error ⟨422, "name is required"⟩, s)
      else if slug = "" then (.error ⟨422, "slug is required"⟩, s)
      else if parent_id.any (fun pid => !(s.categories.any (fun c => c.id == pid))) then
        (.error ⟨422, "parent_id does not exist"⟩, s)
      else if s.categories.any (fun c => c.slug == slug) then
        (.error ⟨409, "category slug already exists"⟩, s)
      else
        let cat : Category := ⟨s.nextCatId, name, slug, parent_id⟩
        (.ok cat, { s with categories := s.categories ++ [cat],
                           nextCatId := s.nextCatId + 1 })

/-- Endpoint `update_category`: 404 when the id matches no category, then
field-by-field partial update — blank `name`/`slug` are 422, a supplied
`parent_id` equal to the category's own id is 422 ("parent_id cannot be
equal to category_id"), a non-existent parent is 422 — and commit, mapping
a slug unique-constraint violation to 409.  Every error path happens before
the commit (or rolls it back), so the store is returned unchanged there. -/
def update_category (s : Store) (category_id : Int) (raw : Raw) :
    Except HErr Category × Store :=
  match s.categories.find? (fun c => c.id == category_id) with
  | none => (.error ⟨404, "category not found"⟩, s)
  | some cat0 =>
    let r1 : Except HErr Category :=
      if rawHas raw "name" then
        match pyOrStr? (rawGet raw "name") with
        | none => .error ⟨500, "AttributeError"⟩
        | some n0 =>
            let n := pyStripS n0
            if n = "" then .error ⟨422, "name is required"⟩
            else .ok { cat0 with name := n }
      else .ok cat0
    match r1 with
    | .error e => (.error e, s)
    | .ok cat1 =>
      let r2 : Except HErr Category :=
        if rawHas raw "slug" then
          match pyOrStr? (rawGet raw "slug") with
          | none => .error ⟨500, "AttributeError"⟩
          | some s0 =>
              let sl := pyStripS s0
              if sl = "" then .error ⟨422, "slug is required"⟩
              else .ok { cat1 with slug := sl }
        else .ok cat1
      match r2 with
      | .error e => (.error e, s)
      | .ok cat2 =>
        let r3 : Except HErr Category :=
          if rawHas raw "parent_id" then
            match to_int_or_none (rawGet raw "parent_id") with
            | some pid =>
                if pid == category_id then
                  .error ⟨422, "parent_id cannot be equal to category_id"⟩
                else if s.categories.any (fun c => c.id == pid) then
                  .ok { cat2 with parent_id := some pid }
                else .error ⟨422, "parent_id does not exist"⟩
            | none => .ok { cat2 with parent_id := none }
          else .ok cat2
        match r3 with
        | .error e => (.error e, s)
        | .ok cat3 =>
          if s.categories.any (fun c => c.slug == cat3.slug && !(c.id == category_id)) then
            (.error ⟨409, "category slug already exists"⟩, s)
          else
            (.ok cat3,
              { s with categories :=
                  s.categories.map (fun c => if c.id == category_id then cat3 else c) })

/-- Endpoint `delete_category`: the handler issues the bulk statement
`delete(Category).where(Category.id == category_id)` and commits.  A bulk
SQL delete does not run the ORM-level `cascade="all, delete-orphan"`
declared on `Category.children`, and the `parent_id`/`category_id` foreign
keys carry no `ON DELETE` action, so on PostgreSQL deleting a category that
is still referenced by another category's `parent_id` (or by a product)
raises an uncaught `IntegrityError` (500) and the transaction rolls back;
otherwise exactly the rows with the given id are removed. -/
def delete_category (s : Store) (category_id : Int) : Except HErr Unit × Store :=
  if s.categories.any (fun c => c.id == category_id) &&
     (s.categories.any (fun c => c.parent_id == some category_id && !(c.id == category_id)) ||
      s.products.any (fun p => p.category_id == category_id)) then
    (.error ⟨500, "IntegrityError: foreign key violation"⟩, s)
  else
    (.ok (), { s with categories := s.categories.filter (fun c => !(c.id == category_id)) })

/-! ## Product endpoints (`api.py` lines 390-439 and 464-539, 620-628) -/

/-- Query parameters of `list_products` with FastAPI's declared constraints
(`limit` in `[1,200]` with default 50, `offset ≥ 0` with default 0,
`min_price`/`max_price ≥ 0`, `is_active` defaulting to `True` at the HTTP
layer). -/
structure ListQuery where
  q : Option String
  category_id : Option Int
  min_price : Option ℚ
  max_price : Option ℚ
  is_active : Option Bool
  limit : Int
  offset : Int
deriving DecidableEq

/-- Case-insensitive substring test, the semantics of SQL
`col ILIKE '%' + q + '%'` for a pattern without further wildcards. -/
def ilikeContains (hay pat : String) : Bool :=
  decide ((pat.data.map pyLowerCh) <:+: (hay.data.map pyLowerCh))

/-- Filter conjunction built by `list_products`: active-flag equality when
`is_active` is not null, category equality, inclusive price bounds, and —
only for a non-empty `q` (`if q:` is false on `""`) — a case-insensitive
substring match on title or description, where a SQL NULL description never
matches. -/
def matchesConds (qry : ListQuery) (p : Product) : Bool :=
  (match qry.is_active with
   | none => true
   | some b => p.is_active == b) &&
  (match qry.category_id with
   | none => true
   | some cid => p.category_id == cid) &&
  (match qry.min_price with
   | none => true
   | some m => decide (m ≤ p.price)) &&
  (match qry.max_price with
   | none => true
   | some m => decide (p.price ≤ m)) &&
  (match qry.q with
   | none => true
   | some t =>
       if t = "" then true
       else ilikeContains p.title t ||
            (match p.description with
             | some d => ilikeContains d t
             | none => false))

/-- Products passing the filter conjunction (the `WHERE` clause of
`list_products`, before ordering and pagination). -/
def filteredProducts (s : Store) (qry : ListQuery) : List Product :=
  s.products.filter (matchesConds qry)

/-- Insertion into a list sorted by id descending. -/
def insertByIdDesc (p : Product) : List Product → List Product
  | [] => [p]
  | x :: xs => if x.id ≤ p.id then p :: x :: xs else x :: insertByIdDesc p xs

/-- Sort by id descending (`ORDER BY id DESC`, newest first). -/
def sortByIdDesc : List Product → List Product
  | [] => []
  | x :: xs => insertByIdDesc x (sortByIdDesc xs)

/-- Boundary validation of the query parameters, as declared on the FastAPI
`Query(...)` dependencies: out-of-range values are rejected with 422 before
the handler runs; nothing is clamped. -/
def listQueryValid (qry : ListQuery) : Bool :=
  decide (1 ≤ qry.limit ∧ qry.limit ≤ 200 ∧ 0 ≤ qry.offset) &&
  (match qry.min_price with
   | none => true
   | some m => decide (0 ≤ m)) &&
  (match qry.max_price with
   | none => true
   | some m => decide (0 ≤ m))

/-- Endpoint `list_products`: validate the pagination and filter parameters
(422 on violation, no rows returned), then filter, order by id descending
and apply offset/limit. -/
def list_products (s : Store) (qry : ListQuery) : Except HErr (List Product) :=
  if listQueryValid qry then
    .ok (((sortByIdDesc (filteredProducts s qry)).drop qry.offset.toNat).take
      qry.limit.toNat)
  else .error ⟨422, "query parameter validation failed"⟩

/-- Endpoint `create_product`: title is read with `str(...)` (total) and
must be non-blank (422); a blank or absent slug falls back to
`slugify(title)`; `price` goes through `to_float`, whose `ValueError` on an
unparsable string is uncaught (500); currency is stripped and upper-cased
with default `"RUB"` — its length is never checked; stock and the active
flag are coerced leniently; string-valued images/attributes are parsed as
JSON; `category_id` must parse to an int (422) and reference an existing
category (422, checked before the insert); finally the insert commits,
mapping a slug unique-constraint violation to 409.  No price sign check is
performed anywhere. -/
def create_product (s : Store) (raw : Raw) : Except HErr Product × Store :=
  let title := pyStripS (pyStrOf (rawGetD raw "title" (.jstr "")))
  if title = "" then (.error ⟨422, "title is required"⟩, s)
  else
    let slugRaw := pyStripS (pyStrOf (pyOrJ (rawGet raw "slug") (.jstr "")))
    let slug := if slugRaw = "" then slugify title else slugRaw
    let description :=
      let d := pyStripS (pyStrOf (pyOrJ (rawGet raw "description") (.jstr "")))
      if d = "" then none else some d
    match to_float (rawGetD raw "price" (.jnum 0)) with
    | none => (.error ⟨500, "ValueError: could not convert string to float"⟩, s)
    | some price =>
      let currency :=
        let c := pyUpperS (pyStripS (pyStrOf (rawGetD raw "currency" (.jstr "RUB"))))
        if c = "" then "RUB" else c
      let stock := (to_int_or_none (rawGet raw "stock")).getD 0
      let is_active := to_bool (rawGet raw "is_active")
      let images : Option JVal :=
        match rawGet raw "images" with
        | .jstr t => parse_json_field (.jstr t)
        | .jnull => none
        | v => some v
      let attributes : Option JVal :=
        match rawGet raw "attributes" with
        | .jstr t => parse_json_field (.jstr t)
        | .jnull => none
        | v => some v
      match to_int_or_none (rawGet raw "category_id") with
      | none => (.error ⟨422, "category_id is required and must be int"⟩, s)
      | some category_id =>
        if !(s.categories.any (fun c => c.id == category_id)) then
          (.error ⟨422, "category_id does not exist"⟩, s)
        else if s.products.any (fun p => p.slug == slug) then
          (.error ⟨409, "product slug already exists"⟩, s)
        else
          let p : Product := ⟨s.nextProdId, title, slug, description, price,
            currency, stock, is_active, images, attributes, category_id⟩
          (.ok p, { s with products := s.products ++ [p],
                           nextProdId := s.nextProdId + 1 })

/-- Endpoint `delete_product`: bulk delete of the rows with the given id and
commit; deleting zero rows succeeds (products carry no inbound foreign
keys). -/
def delete_product (s : Store) (product_id : Int) : Except HErr Unit × Store :=
  (.ok (), { s with products := s.products.filter (fun p => !(p.id == product_id)) })

/-! ## Helper lemmas: character classes -/

theorem slug_not_space {c : Char} (h : isSlugChar c = true) : isSpaceCh c = false := by
  simp only [isSlugChar, decide_eq_true_eq] at h
  simp only [isSpaceCh, decide_eq_false_iff_not]
  omega

theorem slug_lower_stable {c : Char} (h : isSlugChar c = true) : pyLowerCh c = c := by
  simp only [isSlugChar, decide_eq_true_eq] at h
  unfold pyLowerCh
  rw [if_neg]
  omega

theorem hyphen_eq {c : Char} (h : isHyphenCh c = true) : c = '-' := by
  simpa [isHyphenCh] using h

theorem hyphen_is_slug {c : Char} (h : isHyphenCh c = true) : isSlugChar c = true := by
  rw [hyphen_eq h]; decide

/-! ## Helper lemmas: run substitution and hyphen doubling -/

/-- Test that no two adjacent characters both satisfy `p`. -/
def noDouble (p : Char → Bool) : List Char → Bool
  | a :: b :: rest => (!(p a && p b)) && noDouble p (b :: rest)
  | _ => true

theorem noDouble_cons_iff {p : Char → Bool} {a : Char} {l : List Char} :
    noDouble p (a :: l) = true ↔
      noDouble p l = true ∧ (∀ b, l.head? = some b → (p a && p b) = false) := by
  cases l with
  | nil => simp [noDouble]
  | cons b rest =>
      simp only [noDouble, Bool.and_eq_true, Bool.not_eq_true',
        List.head?_cons, Option.some.injEq]
      constructor
      · rintro ⟨h1, h2⟩
        exact ⟨h2, fun b' hb => hb ▸ h1⟩
      · rintro ⟨h1, h2⟩
        exact ⟨h2 b rfl, h1⟩

theorem subRunsAux_mem {p : Char → Bool} {r : Char} {c : Char} :
    ∀ {s : List Char} {b : Bool}, c ∈ subRunsAux p r s b →
      c = r ∨ (c ∈ s ∧ p c = false) := by
  intro s
  induction s with
  | nil => intro b h; simp [subRunsAux] at h
  | cons a t ih =>
      intro b h
      unfold subRunsAux at h
      by_cases hpa : p a = true
      · rw [if_pos hpa] at h
        cases b with
        | true =>
            simp only [if_pos] at h
            rcases ih h with h' | ⟨hm, hp⟩
            · exact Or.inl h'
            · exact Or.inr ⟨List.mem_cons_of_mem _ hm, hp⟩
        | false =>
            simp only [if_neg Bool.false_ne_true] at h
            rcases List.mem_cons.mp h with rfl | h'
            · exact Or.inl rfl
            · rcases ih h' with h'' | ⟨hm, hp⟩
              · exact Or.inl h''
              · exact Or.inr ⟨List.mem_cons_of_mem _ hm, hp⟩
      · rw [if_neg hpa] at h
        rcases List.mem_cons.mp h with rfl | h'
        · exact Or.inr ⟨List.mem_cons_self _ _, by simpa using hpa⟩
        · rcases ih h' with h'' | ⟨hm, hp⟩
          · exact Or.inl h''
          · exact Or.inr ⟨List.mem_cons_of_mem _ hm, hp⟩

theorem subRunsAux_eq_self {p : Char → Bool} {r : Char} :
    ∀ {s : List Char} {b : Bool}, (∀ c ∈ s, p c = false) →
      subRunsAux p r s b = s := by
  intro s
  induction s with
  | nil => intro b _; rfl
  | cons a t ih =>
      intro b hall
      unfold subRunsAux
      rw [if_neg (by simp [hall a (List.mem_cons_self _ _)])]
      exact congrArg (a :: ·) (ih fun c hc => hall c (List.mem_cons_of_mem _ hc))

theorem subRunsAux_noDouble {p : Char → Bool} {r : Char} :
    ∀ (s : List Char) (b : Bool),
      noDouble p (subRunsAux p r s b) = true ∧
      (b = true → ∀ c, (subRunsAux p r s b).head? = some c → p c = false) := by
  intro s
  induction s with
  | nil => intro b; exact ⟨rfl, by intro _ c hc; simp [subRunsAux] at hc⟩
  | cons a t ih =>
      intro b
      unfold subRunsAux
      by_cases hpa : p a = true
      · rw [if_pos hpa]
        cases b with
        | true => simpa using ih true
        | false =>
            simp only [if_neg Bool.false_ne_true]
            refine ⟨?_, by intro h; exact absurd h (by simp)⟩
            rcases ih true with ⟨hnd, hhd⟩
            exact noDouble_cons_iff.mpr ⟨hnd, fun b' hb =>
              by rw [hhd rfl b' hb]; simp⟩
      · rw [if_neg hpa]
        refine ⟨?_, ?_⟩
        · rcases ih false with ⟨hnd, _⟩
          exact noDouble_cons_iff.mpr ⟨hnd, fun b' _ =>
            by rw [(by simpa using hpa : p a = false)]; simp⟩
        · intro _ c hc
          rw [List.head?_cons, Option.some.injEq] at hc
          rw [← hc]
          simpa using hpa

theorem subRunsAux_true_eq_false {p : Char → Bool} {r : Char} {s : List Char}
    (h : ∀ c, s.head? = some c → p c = false) :
    subRunsAux p r s true = subRunsAux p r s false := by
  cases s with
  | nil => rfl
  | cons a t =>
      have hpa : p a = false := h a rfl
      simp [subRunsAux, hpa]

theorem noDouble_tail {p : Char → Bool} {a : Char} {l : List Char}
    (h : noDouble p (a :: l) = true) : noDouble p l = true :=
  (noDouble_cons_iff.mp h).1

theorem subRunsAux_id {p : Char → Bool} {r : Char} :
    ∀ {s : List Char}, noDouble p s = true → (∀ c ∈ s, p c = true → c = r) →
      subRunsAux p r s false = s := by
  intro s
  induction s with
  | nil => intro _ _; rfl
  | cons a t ih =>
      intro hnd hall
      unfold subRunsAux
      by_cases hpa : p a = true
      · rw [if_pos hpa, hall a (List.mem_cons_self _ _) hpa]
        refine congrArg (r :: ·) ?_
        rw [subRunsAux_true_eq_false (fun c hc => ?_),
          ih (noDouble_tail hnd) (fun c hc h => hall c (List.mem_cons_of_mem _ hc) h)]
        have := (noDouble_cons_iff.mp hnd).2 c hc
        rw [hpa] at this
        simpa using this
      · rw [if_neg hpa]
        exact congrArg (a :: ·)
          (ih (noDouble_tail hnd) (fun c hc h => hall c (List.mem_cons_of_mem _ hc) h))

theorem noDouble_of_append_right {p : Char → Bool} :
    ∀ {t u : List Char}, noDouble p (t ++ u) = true → noDouble p u = true := by
  intro t
  induction t with
  | nil => intro u h; exact h
  | cons a t' ih => intro u h; exact ih (noDouble_tail h)

theorem noDouble_of_append_left {p : Char → Bool} :
    ∀ {t u : List Char}, noDouble p (t ++ u) = true → noDouble p t = true := by
  intro t
  induction t with
  | nil => intro u _; rfl
  | cons a t' ih =>
      intro u h
      rcases noDouble_cons_iff.mp h with ⟨h1, h2⟩
      refine noDouble_cons_iff.mpr ⟨ih h1, fun b hb => h2 b ?_⟩
      cases t' with
      | nil => simp at hb
      | cons x xs => simpa using hb

/-! ## Helper lemmas: dropWhile, dropEnd, stripBoth -/

theorem head?_dropWhile {p : Char → Bool} {l : List Char} {c : Char}
    (h : (l.dropWhile p).head? = some c) : p c = false := by
  have := List.head?_dropWhile_not p l
  rw [h] at this
  exact this

theorem dropWhile_eq_self {p : Char → Bool} {l : List Char}
    (h : ∀ c, l.head? = some c → p c = false) : l.dropWhile p = l := by
  cases l with
  | nil => rfl
  | cons a t => exact List.dropWhile_cons_of_neg (by simp [h a rfl])

theorem mem_of_mem_dropWhile {p : Char → Bool} {l : List Char} {c : Char}
    (h : c ∈ l.dropWhile p) : c ∈ l :=
  (List.dropWhile_sublist p).mem h

theorem getLast?_of_some {l : List Char} {c : Char} (h : l.getLast? = some c) :
    c ∈ l := by
  have hr : l.reverse.head? = some c := by rw [List.head?_reverse]; exact h
  exact List.mem_reverse.mp (List.mem_of_mem_head? hr)

theorem dropEnd_getLast {p : Char → Bool} {l : List Char} {c : Char}
    (h : (dropEnd p l).getLast? = some c) : p c = false := by
  unfold dropEnd at h
  rw [List.getLast?_reverse] at h
  exact head?_dropWhile h

theorem exists_dropEnd_append {p : Char → Bool} (l : List Char) :
    ∃ t, l = dropEnd p l ++ t := by
  refine ⟨(l.reverse.takeWhile p).reverse, ?_⟩
  unfold dropEnd
  rw [← List.reverse_append, List.takeWhile_append_dropWhile, List.reverse_reverse]

theorem mem_of_mem_dropEnd {p : Char → Bool} {l : List Char} {c : Char}
    (h : c ∈ dropEnd p l) : c ∈ l := by
  rcases exists_dropEnd_append (p := p) l with ⟨t, ht⟩
  rw [ht]
  exact List.mem_append_left _ h

theorem noDouble_dropEnd {p q : Char → Bool} {l : List Char}
    (h : noDouble q l = true) : noDouble q (dropEnd p l) = true := by
  rcases exists_dropEnd_append (p := p) l with ⟨t, ht⟩
  rw [ht] at h
  exact noDouble_of_append_left h

theorem dropEnd_head {p : Char → Bool} {l : List Char} {c : Char}
    (h : (dropEnd p l).head? = some c) : l.head? = some c := by
  rcases exists_dropEnd_append (p := p) l with ⟨t, ht⟩
  rw [ht]
  cases hd : dropEnd p l with
  | nil => rw [hd] at h; simp at h
  | cons a u => rw [hd] at h; simp at h; simp [hd, h]

theorem dropEnd_eq_self {p : Char → Bool} {l : List Char}
    (h : ∀ c, l.getLast? = some c → p c = false) : dropEnd p l = l := by
  unfold dropEnd
  rw [dropWhile_eq_self (fun c hc => h c (by rw [← List.head?_reverse]; exact hc)),
    List.reverse_reverse]

theorem stripBoth_head {p : Char → Bool} {l : List Char} {c : Char}
    (h : (stripBoth p l).head? = some c) : p c = false :=
  head?_dropWhile (dropEnd_head h)

theorem stripBoth_getLast {p : Char → Bool} {l : List Char} {c : Char}
    (h : (stripBoth p l).getLast? = some c) : p c = false :=
  dropEnd_getLast h

theorem mem_of_mem_stripBoth {p : Char → Bool} {l : List Char} {c : Char}
    (h : c ∈ stripBoth p l) : c ∈ l :=
  mem_of_mem_dropWhile (mem_of_mem_dropEnd h)

theorem noDouble_stripBoth {p q : Char → Bool} {l : List Char}
    (h : noDouble q l = true) : noDouble q (stripBoth p l) = true := by
  unfold stripBoth
  refine noDouble_dropEnd ?_
  rcases (by exact ⟨l.takeWhile p, (List.takeWhile_append_dropWhile p l).symm⟩ :
    ∃ t, l = t ++ l.dropWhile p) with ⟨t, ht⟩
  rw [ht] at h
  exact noDouble_of_append_right h

theorem stripBoth_eq_self {p : Char → Bool} {l : List Char}
    (hh : ∀ c, l.head? = some c → p c = false)
    (hl : ∀ c, l.getLast? = some c → p c = false) : stripBoth p l = l := by
  unfold stripBoth
  rw [dropWhile_eq_self hh, dropEnd_eq_self hl]

theorem map_eq_self_of {f : Char → Char} {l : List Char}
    (h : ∀ c ∈ l, f c = c) : l.map f = l := by
  induction l with
  | nil => rfl
  | cons a t ih =>
      simp only [List.map_cons, h a (List.mem_cons_self _ _)]
      exact congrArg (a :: ·) (ih fun c hc => h c (List.mem_cons_of_mem _ hc))

/-! ## Properties of slugifyChars -/

theorem slugifyChars_mem_slug {v : List Char} {c : Char}
    (h : c ∈ slugifyChars v) : isSlugChar c = true := by
  unfold slugifyChars at h
  have h4 := mem_of_mem_stripBoth h
  rcases subRunsAux_mem h4 with rfl | ⟨h3, _⟩
  · decide
  · rcases subRunsAux_mem h3 with rfl | ⟨_, hgood⟩
    · decide
    · simpa using hgood

theorem slugifyChars_noDouble (v : List Char) :
    noDouble isHyphenCh (slugifyChars v) = true := by
  unfold slugifyChars
  exact noDouble_stripBoth (subRunsAux_noDouble _ false).1

theorem slugifyChars_head {v : List Char} {c : Char}
    (h : (slugifyChars v).head? = some c) : isHyphenCh c = false :=
  stripBoth_head h

theorem slugifyChars_getLast {v : List Char} {c : Char}
    (h : (slugifyChars v).getLast? = some c) : isHyphenCh c = false :=
  stripBoth_getLast h

theorem slugifyChars_idem (v : List Char) :
    slugifyChars (slugifyChars v) = slugifyChars v := by
  have hmem : ∀ c ∈ slugifyChars v, isSlugChar c = true :=
    fun c hc => slugifyChars_mem_slug hc
  have h1 : stripBoth isSpaceCh (slugifyChars v) = slugifyChars v :=
    stripBoth_eq_self
      (fun c hc => slug_not_space (hmem c (List.mem_of_mem_head? hc)))
      (fun c hc => slug_not_space (hmem c (getLast?_of_some hc)))
  have h2 : (slugifyChars v).map pyLowerCh = slugifyChars v :=
    map_eq_self_of (fun c hc => slug_lower_stable (hmem c hc))
  have e1 : subRuns isSpaceCh '-' (slugifyChars v) = slugifyChars v :=
    subRunsAux_eq_self (fun c hc => slug_not_space (hmem c hc))
  have e2 : subRuns (fun c => !(isSlugChar c)) '-' (slugifyChars v) = slugifyChars v :=
    subRunsAux_eq_self (fun c hc => by simp [hmem c hc])
  have e3 : subRuns isHyphenCh '-' (slugifyChars v) = slugifyChars v :=
    subRunsAux_id (slugifyChars_noDouble v) (fun c _ hc => hyphen_eq hc)
  have h5 : stripBoth isHyphenCh (slugifyChars v) = slugifyChars v :=
    stripBoth_eq_self
      (fun c hc => slugifyChars_head hc)
      (fun c hc => slugifyChars_getLast hc)
  calc slugifyChars (slugifyChars v)
      = stripBoth isHyphenCh (subRuns isHyphenCh '-'
          (subRuns (fun c => !(isSlugChar c)) '-' (subRuns isSpaceCh '-'
            ((stripBoth isSpaceCh (slugifyChars v)).map pyLowerCh)))) := rfl
    _ = slugifyChars v := by rw [h1, h2, e1, e2, e3, h5]

/-! ## Claim C5 -/

/-- C5: `slugify` is deterministic (it is a pure function of its input) and
idempotent — `slugify (slugify x) = slugify x` for every input string — and
its result is always non-empty, consists only of characters in `[a-z0-9-]`,
and has no leading, trailing, or doubled hyphens; when the normalization
pipeline yields the empty string, the fixed fallback token `"item"` is
returned. -/
theorem slugify_deterministic_idempotent_shape (x : String) :
    slugify (slugify x) = slugify x ∧
    slugify x ≠ "" ∧
    (slugify x).data.all isSlugChar = true ∧
    (∀ c, (slugify x).data.head? = some c → c ≠ '-') ∧
    (∀ c, (slugify x).data.getLast? = some c → c ≠ '-') ∧
    noDouble isHyphenCh (slugify x).data = true ∧
    (slugifyChars x.data = [] → slugify x = "item") := by
  cases h : slugifyChars x.data with
  | nil =>
      have hx : slugify x = "item" := by unfold slugify; rw [h]
      rw [hx]
      exact ⟨by decide, by decide, by decide, by decide, by decide, by decide,
        fun _ => rfl⟩
  | cons a t =>
      have hx : slugify x = ⟨a :: t⟩ := by unfold slugify; rw [h]
      have hdata : (slugify x).data = a :: t := by rw [hx]
      have hidem : slugifyChars (a :: t) = a :: t := by
        rw [← h, slugifyChars_idem]
      refine ⟨?_, ?_, ?_, ?_, ?_, ?_, ?_⟩
      · rw [hx]
        show slugify ⟨a :: t⟩ = _
        unfold slugify
        rw [show (String.mk (a :: t)).data = a :: t from rfl, hidem]
      · rw [hx]
        intro hcontra
        have := congrArg String.data hcontra
        simp at this
      · rw [hdata]
        refine List.all_eq_true.mpr fun c hc => ?_
        exact slugifyChars_mem_slug (h ▸ hc)
      · intro c hc
        rw [hdata] at hc
        have : isHyphenCh c = false := slugifyChars_head (h ▸ hc)
        simpa [isHyphenCh] using this
      · intro c hc
        rw [hdata] at hc
        have : isHyphenCh c = false := slugifyChars_getLast (h ▸ hc)
        simpa [isHyphenCh] using this
      · rw [hdata, ← h]
        exact slugifyChars_noDouble _
      · intro hcontra
        exact absurd hcontra (by simp)

/-- Witness for C5 at a concrete input with whitespace, uppercase,
punctuation and stray hyphens. -/
theorem slugify_deterministic_idempotent_shape_witness :
    slugify (slugify " --Nice   Shoes!!-- ") = slugify " --Nice   Shoes!!-- " ∧
    slugify " --Nice   Shoes!!-- " ≠ "" ∧
    (slugify " --Nice   Shoes!!-- ").data.all isSlugChar = true :=
  ⟨(slugify_deterministic_idempotent_shape " --Nice   Shoes!!-- ").1,
   (slugify_deterministic_idempotent_shape " --Nice   Shoes!!-- ").2.1,
   (slugify_deterministic_idempotent_shape " --Nice   Shoes!!-- ").2.2.1⟩

/-! ## Claim C8: conjunctive filter composition -/

/-- Effective text-search condition of a query: `if q:` in the handler is
false both for an absent and for an empty `q`. -/
def effQ (f : ListQuery) : Option String :=
  match f.q with
  | some t => if t = "" then none else some t
  | none => none

/-- Query `f` imposes a subset of the conditions of query `g`: every filter
that `f` sets is set identically in `g`. -/
def SubFilter (f g : ListQuery) : Prop :=
  (f.is_active = none ∨ f.is_active = g.is_active) ∧
  (f.category_id = none ∨ f.category_id = g.category_id) ∧
  (f.min_price = none ∨ f.min_price = g.min_price) ∧
  (f.max_price = none ∨ f.max_price = g.max_price) ∧
  (effQ f = none ∨ effQ f = effQ g)

instance (f g : ListQuery) : Decidable (SubFilter f g) := by
  unfold SubFilter; infer_instance

theorem matchesConds_mono {f g : ListQuery} (hfg : SubFilter f g) {p : Product}
    (h : matchesConds g p = true) : matchesConds f p = true := by
  obtain ⟨h1, h2, h3, h4, h5⟩ := hfg
  unfold matchesConds at h ⊢
  simp only [Bool.and_eq_true] at h ⊢
  obtain ⟨⟨⟨⟨ha, hc⟩, hmin⟩, hmax⟩, hq⟩ := h
  refine ⟨⟨⟨⟨?_, ?_⟩, ?_⟩, ?_⟩, ?_⟩
  · rcases h1 with h1 | h1
    · rw [h1]
    · rw [h1]; exact ha
  · rcases h2 with h2 | h2
    · rw [h2]
    · rw [h2]; exact hc
  · rcases h3 with h3 | h3
    · rw [h3]
    · rw [h3]; exact hmin
  · rcases h4 with h4 | h4
    · rw [h4]
    · rw [h4]; exact hmax
  · cases hf : f.q with
    | none => rfl
    | some t =>
        dsimp only
        by_cases ht : t = ""
        · simp [ht]
        · rw [if_neg ht]
          have heff : effQ f = some t := by simp [effQ, hf, ht]
          have h5' : effQ g = some t := by
            rcases h5 with h5 | h5
            · rw [heff] at h5; exact absurd h5 (by simp)
            · rw [heff] at h5; exact h5.symm
          cases hg : g.q with
          | none => simp [effQ, hg] at h5'
          | some t' =>
              simp only [effQ, hg] at h5'
              by_cases ht' : t' = ""
              · rw [if_pos ht'] at h5'
                exact absurd h5' (by simp)
              · rw [if_neg ht'] at h5'
                have htt : t' = t := by simpa using h5'
                rw [hg] at hq
                dsimp only at hq
                rw [if_neg ht', htt] at hq
                exact hq

/-- C8: listing filters compose conjunctively — for every store state and
every pair of queries where `f` imposes a subset of the (optional) filter
conditions of `g` (active flag, category equality, inclusive price bounds,
case-insensitive substring search), every product passing `g`'s conjunction
also passes `f`'s, so the rows listed under both conditions are among the
rows listed under each condition alone (pagination ignored). -/
theorem list_filters_compose_conjunctively (f g : ListQuery) (s : Store)
    (hfg : SubFilter f g) (p : Product) (hp : p ∈ filteredProducts s g) :
    p ∈ filteredProducts s f := by
  rw [filteredProducts, List.mem_filter] at hp ⊢
  exact ⟨hp.1, matchesConds_mono hfg hp.2⟩

/-- Product used in the C8 witness. -/
def prodC8 : Product :=
  ⟨1, "Shoe X", "shoe-x", some "a great shoe", 20, "RUB", 1, true, none, none, 1⟩

/-- Store used in the C8 witness. -/
def storeC8 : Store := ⟨[⟨1, "Shoes", "shoes", none⟩], [prodC8], 2, 2⟩

/-- Query with only a price lower bound (C8 witness). -/
def fC8 : ListQuery := ⟨none, none, some 10, none, some true, 50, 0⟩

/-- Query adding a text search to `fC8` (C8 witness). -/
def gC8 : ListQuery := ⟨some "shoe", none, some 10, none, some true, 50, 0⟩

/-- Witness for C8 at a concrete store and query pair. -/
theorem list_filters_compose_conjunctively_witness :
    prodC8 ∈ filteredProducts storeC8 fC8 :=
  list_filters_compose_conjunctively fC8 gC8 storeC8 (by decide) prodC8
    (List.Mem.head _)

/-! ## Claim C3: pagination bounds are rejected, not clamped -/

/-- C3: a `limit` outside `[1, 200]` or a negative `offset` makes
`list_products` fail with a 422 Validation error; no rows are returned and
the out-of-range value is never clamped into range. -/
theorem list_products_rejects_bad_pagination (s : Store) (qry : ListQuery)
    (h : qry.limit < 1 ∨ 200 < qry.limit ∨ qry.offset < 0) :
    list_products s qry = .error ⟨422, "query parameter validation failed"⟩ ∧
    ∀ rows, list_products s qry ≠ .ok rows := by
  have hv : listQueryValid qry = false := by
    have hno : ¬ (1 ≤ qry.limit ∧ qry.limit ≤ 200 ∧ 0 ≤ qry.offset) := by omega
    simp [listQueryValid, hno]
  refine ⟨by simp [list_products, hv], fun rows hrows => ?_⟩
  rw [list_products, if_neg (by simp [hv])] at hrows
  exact Except.noConfusion hrows

/-- Witness for C3: `limit = 1000` (spec scenario 6). -/
theorem list_products_rejects_bad_pagination_witness :
    list_products ⟨[], [], 1, 1⟩ ⟨none, none, none, none, some true, 1000, 0⟩ =
      .error ⟨422, "query parameter validation failed"⟩ :=
  (list_products_rejects_bad_pagination _ _ (by decide)).1

/-! ## Claim C10: deleting a missing id succeeds and changes nothing -/

/-- C10: for an id that matches no existing record, `delete_product` and
`delete_category` both complete successfully (no NotFound, no error) and
leave the store unchanged — the bulk delete statements simply affect zero
rows, making deletion idempotent. -/
theorem delete_missing_id_is_noop (s : Store) (cid pid : Int)
    (hc : s.categories.all (fun c => !(c.id == cid)) = true)
    (hp : s.products.all (fun p => !(p.id == pid)) = true) :
    delete_category s cid = (.ok (), s) ∧ delete_product s pid = (.ok (), s) := by
  constructor
  · have hany : s.categories.any (fun c => c.id == cid) = false := by
      rw [List.any_eq_false]
      intro c hmem
      simpa using List.all_eq_true.mp hc c hmem
    have hself : s.categories.filter (fun c => !(c.id == cid)) = s.categories :=
      List.filter_eq_self.mpr (fun c hmem => List.all_eq_true.mp hc c hmem)
    rw [delete_category, hany]
    simp only [Bool.false_and, if_neg Bool.false_ne_true, hself]
  · have hself : s.products.filter (fun p => !(p.id == pid)) = s.products :=
      List.filter_eq_self.mpr (fun p hmem => List.all_eq_true.mp hp p hmem)
    rw [delete_product, hself]

/-- Store used in the C10 witness. -/
def storeC10 : Store :=
  ⟨[⟨1, "A", "a", none⟩], [⟨1, "T", "t", none, 5, "RUB", 0, true, none, none, 1⟩], 2, 2⟩

/-- Witness for C10: deleting the absent id 99 twice over is a no-op. -/
theorem delete_missing_id_is_noop_witness :
    delete_category storeC10 99 = (.ok (), storeC10) ∧
    delete_product storeC10 99 = (.ok (), storeC10) :=
  delete_missing_id_is_noop storeC10 99 99 (by decide) (by decide)

/-! ## Claim C9: accepted body shapes -/

/-- C9 (amended): normalization accepts exactly two content shapes — a JSON
object or a flat form field set — and an unrecognized content type fails
with 415 UnsupportedEncoding; however a JSON body that decodes to a
non-object is rejected with 422 (Validation, "JSON payload must be an
object"), not with UnsupportedEncoding. -/
theorem parse_json_or_form_shapes (allowed : List String) (v : JVal)
    (hv : ∀ fs, v ≠ .jobj fs) :
    parse_json_or_form (.jsonBody v) allowed =
      .error ⟨422, "JSON payload must be an object"⟩ ∧
    parse_json_or_form .otherBody allowed =
      .error ⟨415, "Unsupported Media Type"⟩ ∧
    (∀ fs, ∃ raw, parse_json_or_form (.jsonBody (.jobj fs)) allowed = .ok raw) ∧
    (∀ fields, ∃ raw, parse_json_or_form (.formBody fields) allowed = .ok raw) := by
  refine ⟨?_, rfl, fun fs => ⟨_, rfl⟩, fun fields => ⟨_, rfl⟩⟩
  cases v with
  | jobj fs => exact absurd rfl (hv fs)
  | jnull => rfl
  | jbool b => rfl
  | jnum q => rfl
  | jstr t => rfl
  | jarr xs => rfl

/-- Witness for C9 at a concrete non-object JSON body and allow-list. -/
theorem parse_json_or_form_shapes_witness :
    parse_json_or_form (.jsonBody (.jnum 3)) ["name"] =
      .error ⟨422, "JSON payload must be an object"⟩ ∧
    parse_json_or_form .otherBody ["name"] =
      .error ⟨415, "Unsupported Media Type"⟩ :=
  ⟨(parse_json_or_form_shapes ["name"] (.jnum 3) (fun _ h => JVal.noConfusion h)).1,
   (parse_json_or_form_shapes ["name"] (.jnum 3) (fun _ h => JVal.noConfusion h)).2.1⟩

/-- C9 counterexample: a JSON body decoding to a list (not an object) is
rejected with status 422 (Validation), not 415 (UnsupportedEncoding) as the
claim states. -/
theorem json_array_rejected_with_validation_not_415 :
    errStatus? (parse_json_or_form (.jsonBody (.jarr [])) ["name", "slug", "parent_id"]) =
      some 422 ∧
    errStatus? (parse_json_or_form (.jsonBody (.jarr [])) ["name", "slug", "parent_id"]) ≠
      some 415 :=
  ⟨rfl, by decide⟩

/-! ## Claim C1: category deletion does not cascade -/

/-- Parent category of the C1 failing input. -/
def catA : Category := ⟨1, "A", "a", none⟩

/-- Child category (descendant of `catA`) of the C1 failing input. -/
def catB : Category := ⟨2, "B", "b", some 1⟩

/-- Store of the C1 failing input: the two-category chain A ← B. -/
def storeAB : Store := ⟨[catA, catB], [], 3, 1⟩

/-- C1 evaluation at the failing input: deleting category 1, which has the
descendant category 2, does not remove the subtree — the bulk delete
statement violates the self-referencing foreign key (the ORM cascade
declared on `Category.children` does not run for bulk deletes), the
request fails with an uncaught IntegrityError (500) and both categories,
in particular the descendant `catB`, are still present afterward. -/
theorem delete_category_does_not_cascade :
    errStatus? (delete_category storeAB 1).1 = some 500 ∧
    (delete_category storeAB 1).2 = storeAB ∧
    catB ∈ (delete_category storeAB 1).2.categories := by
  refine ⟨rfl, rfl, ?_⟩
  show catB ∈ storeAB.categories
  exact List.mem_cons_of_mem _ (List.mem_cons_self _ _)

/-! ## Claim C2: create_product performs no price or currency validation -/

/-- Store of the C2 failing input: one category with id 1. -/
def storeC2 : Store := ⟨[⟨1, "Shoes", "shoes", none⟩], [], 2, 1⟩

/-- C2 failing request: negative price and a two-letter currency. -/
def rawC2 : Raw :=
  [("title", .jstr "Shoes"), ("price", .jstr "-5"), ("currency", .jstr "us"),
   ("category_id", .jstr "1")]

/-- C2 evaluation at the failing input: `create_product` never checks the
currency length or the price sign (the `ProductIn` schema declaring those
checks is not used by the handler), so a request with price `-5` and
currency `"us"` succeeds — no error of any kind, one product row persisted —
and the stored product has price `-5` and the two-letter currency `"US"`,
instead of the request failing fast with a Validation error before any
mutation. -/
theorem create_product_skips_price_and_currency_validation :
    errStatus? (create_product storeC2 rawC2).1 = none ∧
    (okVal? (create_product storeC2 rawC2).1).map (fun p => p.price) = some (-5) ∧
    (okVal? (create_product storeC2 rawC2).1).map (fun p => p.currency) = some "US" ∧
    (okVal? (create_product storeC2 rawC2).1).map (fun p => p.currency.length) = some 2 ∧
    (create_product storeC2 rawC2).2.products.length = 1 := by
  refine ⟨rfl, ?_, rfl, rfl, rfl⟩
  rw [show (okVal? (create_product storeC2 rawC2).1).map (fun p => p.price) =
      some ((-1 : ℚ) * ((5 : Nat) : ℚ)) from rfl]
  norm_num

/-! ## Claim C4: create_product with a non-existent category -/

/-- C4 counterexample: a create-product request whose `category_id`
references no existing category, but whose price field is the unparsable
string `"abc"`, fails with an uncaught `ValueError` from `float()` (500) —
before the handler reaches the category existence check — and not with a
Validation error as the claim states.  The store is still unchanged. -/
theorem create_product_bad_price_masks_validation :
    create_product ⟨[], [], 1, 1⟩
        [("title", .jstr "x"), ("price", .jstr "abc"), ("category_id", .jstr "7")] =
      (.error ⟨500, "ValueError: could not convert string to float"⟩, ⟨[], [], 1, 1⟩) ∧
    errStatus? (create_product ⟨[], [], 1, 1⟩
        [("title", .jstr "x"), ("price", .jstr "abc"), ("category_id", .jstr "7")]).1 ≠
      some 422 :=
  ⟨rfl, by decide⟩

/-- C4 (amended): for every create-product request whose `category_id`
references no existing category, the operation fails and no product record
is persisted (the store is returned unchanged); the failure is a 422
Validation error whenever the price field coerces without raising — price
absent, numeric, or a parseable string — while an unparsable price string
instead raises an uncaught `ValueError` (500) earlier, also before any
record is persisted. -/
theorem create_product_missing_category_fails (s : Store) (raw : Raw)
    (hcat : ∀ cid, to_int_or_none (rawGet raw "category_id") = some cid →
      s.categories.any (fun c => c.id == cid) = false) :
    (errStatus? (create_product s raw).1).isSome = true ∧
    (create_product s raw).2 = s ∧
    ((to_float (rawGetD raw "price" (.jnum 0))).isSome →
      errStatus? (create_product s raw).1 = some 422) := by
  unfold create_product
  by_cases ht : pyStripS (pyStrOf (rawGetD raw "title" (.jstr ""))) = ""
  · rw [if_pos ht]
    exact ⟨rfl, rfl, fun _ => rfl⟩
  · rw [if_neg ht]
    cases hf : to_float (rawGetD raw "price" (.jnum 0)) with
    | none =>
        refine ⟨rfl, rfl, fun hs => ?_⟩
        simp at hs
    | some price =>
        cases hc : to_int_or_none (rawGet raw "category_id") with
        | none =>
            refine ⟨rfl, rfl, fun _ => ?_⟩
            rfl
        | some cid =>
            have hany := hcat cid hc
            dsimp only
            rw [hany]
            refine ⟨rfl, rfl, fun _ => ?_⟩
            rfl

/-- Witness for C4: a request referencing the absent category 7 with a
well-formed (absent) price is rejected with 422 and the empty store is
unchanged. -/
theorem create_product_missing_category_fails_witness :
    errStatus? (create_product ⟨[], [], 1, 1⟩
        [("title", .jstr "x"), ("category_id", .jstr "7")]).1 = some 422 ∧
    (create_product ⟨[], [], 1, 1⟩
        [("title", .jstr "x"), ("category_id", .jstr "7")]).2 = (⟨[], [], 1, 1⟩ : Store) :=
  ⟨(create_product_missing_category_fails ⟨[], [], 1, 1⟩ _
      (fun cid h => by
        rw [show to_int_or_none (rawGet
            [("title", JVal.jstr "x"), ("category_id", JVal.jstr "7")] "category_id") =
          some 7 from rfl] at h
        cases h
        rfl)).2.2 (by rfl),
   (create_product_missing_category_fails ⟨[], [], 1, 1⟩ _
      (fun cid h => by
        rw [show to_int_or_none (rawGet
            [("title", JVal.jstr "x"), ("category_id", JVal.jstr "7")] "category_id") =
          some 7 from rfl] at h
        cases h
        rfl)).2.1⟩

/-! ## Claim C7: slug derived from title when absent or blank -/

/-- C7: whenever a create-product request omits the slug or supplies a
blank one (the `(raw.get("slug") or "")` value strips to the empty string)
and the creation succeeds, the stored slug is `slugify` of the stripped
title; in particular `slugify "Nice Shoes" = "nice-shoes"`. -/
theorem create_product_derives_slug_from_title (s : Store) (raw : Raw) (p : Product)
    (hok : (create_product s raw).1 = .ok p)
    (hblank : pyStripS (pyStrOf (pyOrJ (rawGet raw "slug") (.jstr ""))) = "") :
    p.slug = slugify (pyStripS (pyStrOf (rawGetD raw "title" (.jstr "")))) ∧
    slugify "Nice Shoes" = "nice-shoes" := by
  refine ⟨?_, by decide⟩
  revert hok
  unfold create_product
  by_cases ht : pyStripS (pyStrOf (rawGetD raw "title" (.jstr ""))) = ""
  · rw [if_pos ht]
    exact fun hok => Except.noConfusion hok
  · rw [if_neg ht]
    dsimp only
    rw [hblank, if_pos (rfl : ("" : String) = "")]
    split
    · exact fun hok => Except.noConfusion hok
    · split
      · exact fun hok => Except.noConfusion hok
      · split
        · exact fun hok => Except.noConfusion hok
        · split
          · exact fun hok => Except.noConfusion hok
          · intro hok
            injection hok with h
            subst h
            dsimp only

/-- Store used in the C7 witness. -/
def storeC7 : Store := ⟨[⟨1, "Shoes", "shoes", none⟩], [], 2, 1⟩

/-- Request used in the C7 witness: title and category only, no slug. -/
def rawC7 : Raw := [("title", .jstr "Nice Shoes"), ("category_id", .jstr "1")]

/-- Product stored for `rawC7`. -/
def prodC7 : Product :=
  ⟨1, "Nice Shoes", "nice-shoes", none, 0, "RUB", 0, false, none, none, 1⟩

/-- Witness for C7: creating "Nice Shoes" without a slug stores
`"nice-shoes"`. -/
theorem create_product_derives_slug_from_title_witness :
    prodC7.slug = slugify "Nice Shoes" ∧ slugify "Nice Shoes" = "nice-shoes" :=
  create_product_derives_slug_from_title storeC7 rawC7 prodC7 (by rfl) (by rfl)

/-! ## Claim C6: self-parent rejection and the parent invariant -/

/-- Field `k`, when present and truthy, is a string — so the
`(raw.get(k) or "").strip()` pattern in the category handlers does not
raise `AttributeError`. -/
def strFieldOk (raw : Raw) (k : String) : Bool :=
  !(rawHas raw k) || (pyOrStr? (rawGet raw k)).isSome

/-- Analysis of the name step of `update_category` when it produces an
updated record: id, parent and slug are untouched. -/
theorem upd_name_step_ok {b : Bool} {v : JVal} {cat0 cat1 : Category}
    (h : (if b = true then
            match pyOrStr? v with
            | none => (.error ⟨500, "AttributeError"⟩ : Except HErr Category)
            | some n0 =>
                if pyStripS n0 = "" then .error ⟨422, "name is required"⟩
                else .ok { cat0 with name := pyStripS n0 }
          else .ok cat0) = .ok cat1) :
    cat1.id = cat0.id ∧ cat1.parent_id = cat0.parent_id := by
  split at h
  · cases hv : pyOrStr? v with
    | none => rw [hv] at h; exact Except.noConfusion h
    | some n0 =>
        rw [hv] at h
        dsimp only at h
        split at h
        · exact Except.noConfusion h
        · injection h with h
          subst h
          exact ⟨rfl, rfl⟩
  · injection h with h
    subst h
    exact ⟨rfl, rfl⟩

/-- Analysis of the slug step of `update_category` when it produces an
updated record: id and parent are untouched. -/
theorem upd_slug_step_ok {b : Bool} {v : JVal} {cat1 cat2 : Category}
    (h : (if b = true then
            match pyOrStr? v with
            | none => (.error ⟨500, "AttributeError"⟩ : Except HErr Category)
            | some s0 =>
                if pyStripS s0 = "" then .error ⟨422, "slug is required"⟩
                else .ok { cat1 with slug := pyStripS s0 }
          else .ok cat1) = .ok cat2) :
    cat2.id = cat1.id ∧ cat2.parent_id = cat1.parent_id := by
  split at h
  · cases hv : pyOrStr? v with
    | none => rw [hv] at h; exact Except.noConfusion h
    | some s0 =>
        rw [hv] at h
        dsimp only at h
        split at h
        · exact Except.noConfusion h
        · injection h with h
          subst h
          exact ⟨rfl, rfl⟩
  · injection h with h
    subst h
    exact ⟨rfl, rfl⟩

/-- Analysis of the name step of `update_category` when it fails while the
field is a clean string: the error is the 422 blank-name rejection. -/
theorem upd_name_step_error {b : Bool} {v : JVal} {cat0 : Category} {e : HErr}
    (hok : b = true → (pyOrStr? v).isSome = true)
    (h : (if b = true then
            match pyOrStr? v with
            | none => (.error ⟨500, "AttributeError"⟩ : Except HErr Category)
            | some n0 =>
                if pyStripS n0 = "" then .error ⟨422, "name is required"⟩
                else .ok { cat0 with name := pyStripS n0 }
          else .ok cat0) = .error e) :
    e = ⟨422, "name is required"⟩ := by
  split at h
  · rename_i hb
    cases hv : pyOrStr? v with
    | none =>
        have := hok hb
        rw [hv] at this
        simp at this
    | some n0 =>
        rw [hv] at h
        dsimp only at h
        split at h
        · injection h with h
          exact h.symm
        · exact Except.noConfusion h
  · exact Except.noConfusion h

/-- Analysis of the slug step of `update_category` when it fails while the
field is a clean string: the error is the 422 blank-slug rejection. -/
theorem upd_slug_step_error {b : Bool} {v : JVal} {cat1 : Category} {e : HErr}
    (hok : b = true → (pyOrStr? v).isSome = true)
    (h : (if b = true then
            match pyOrStr? v with
            | none => (.error ⟨500, "AttributeError"⟩ : Except HErr Category)
            | some s0 =>
                if pyStripS s0 = "" then .error ⟨422, "slug is required"⟩
                else .ok { cat1 with slug := pyStripS s0 }
          else .ok cat1) = .error e) :
    e = ⟨422, "slug is required"⟩ := by
  split at h
  · rename_i hb
    cases hv : pyOrStr? v with
    | none =>
        have := hok hb
        rw [hv] at this
        simp at this
    | some s0 =>
        rw [hv] at h
        dsimp only at h
        split at h
        · injection h with h
          exact h.symm
        · exact Except.noConfusion h
  · exact Except.noConfusion h

/-- Analysis of the parent step of `update_category`: when the request
supplies a `parent_id` that parses to the category's own id, the step is
exactly the 422 self-parent rejection. -/
theorem upd_parent_step_self {s : Store} {cid : Int} {raw : Raw} {cat2 : Category}
    (hhas : rawHas raw "parent_id" = true)
    (hval : to_int_or_none (rawGet raw "parent_id") = some cid) :
    (if rawHas raw "parent_id" = true then
        match to_int_or_none (rawGet raw "parent_id") with
        | some pid =>
            if pid == cid then
              (.error ⟨422, "parent_id cannot be equal to category_id"⟩ :
                Except HErr Category)
            else if s.categories.any (fun c => c.id == pid) then
              .ok { cat2 with parent_id := some pid }
            else .error ⟨422, "parent_id does not exist"⟩
        | none => .ok { cat2 with parent_id := none }
      else .ok cat2) =
    .error ⟨422, "parent_id cannot be equal to category_id"⟩ := by
  rw [if_pos hhas, hval]
  dsimp only
  rw [if_pos (by simp : (cid == cid) = true)]

/-- Analysis of the parent step of `update_category` when it produces an
updated record: the id is untouched and the new parent is the old one,
null, or an id that differs from the target category's id. -/
theorem upd_parent_step_ok {s : Store} {cid : Int} {raw : Raw} {cat2 cat3 : Category}
    (h : (if rawHas raw "parent_id" = true then
        match to_int_or_none (rawGet raw "parent_id") with
        | some pid =>
            if pid == cid then
              (.error ⟨422, "parent_id cannot be equal to category_id"⟩ :
                Except HErr Category)
            else if s.categories.any (fun c => c.id == pid) then
              .ok { cat2 with parent_id := some pid }
            else .error ⟨422, "parent_id does not exist"⟩
        | none => .ok { cat2 with parent_id := none }
      else .ok cat2) = .ok cat3) :
    cat3.id = cat2.id ∧
    (cat3.parent_id = cat2.parent_id ∨ cat3.parent_id = none ∨
     ∃ pid, cat3.parent_id = some pid ∧ (pid == cid) = false) := by
  split at h
  · cases hv : to_int_or_none (rawGet raw "parent_id") with
    | none =>
        rw [hv] at h
        dsimp only at h
        injection h with h
        subst h
        exact ⟨rfl, Or.inr (Or.inl rfl)⟩
    | some pid =>
        rw [hv] at h
        dsimp only at h
        split at h
        · exact Except.noConfusion h
        · rename_i hne
          split at h
          · injection h with h
            subst h
            exact ⟨rfl, Or.inr (Or.inr ⟨pid, rfl, by simpa using hne⟩)⟩
          · exact Except.noConfusion h
  · injection h with h
    subst h
    exact ⟨rfl, Or.inl rfl⟩

/-- The update endpoint preserves the no-self-parent invariant in every
case (not found, any validation failure, commit conflict, or success). -/
theorem update_category_keeps_parentInv (s : Store) (cid : Int) (raw : Raw)
    (hinv : ParentInv s) : ParentInv (update_category s cid raw).2 := by
  unfold update_category
  cases hfind : s.categories.find? (fun c => c.id == cid) with
  | none => exact hinv
  | some cat0 =>
    have hcat0mem : cat0 ∈ s.categories := List.mem_of_find?_eq_some hfind
    have hcat0id : cat0.id = cid := by simpa using List.find?_some hfind
    dsimp only
    cases hr1 : (if rawHas raw "name" = true then
        match pyOrStr? (rawGet raw "name") with
        | none => (.error ⟨500, "AttributeError"⟩ : Except HErr Category)
        | some n0 =>
            if pyStripS n0 = "" then .error ⟨422, "name is required"⟩
            else .ok { cat0 with name := pyStripS n0 }
      else .ok cat0) with
    | error e => exact hinv
    | ok cat1 =>
      obtain ⟨hid1, hpar1⟩ := upd_name_step_ok hr1
      dsimp only
      cases hr2 : (if rawHas raw "slug" = true then
          match pyOrStr? (rawGet raw "slug") with
          | none => (.error ⟨500, "AttributeError"⟩ : Except HErr Category)
          | some s0 =>
              if pyStripS s0 = "" then .error ⟨422, "slug is required"⟩
              else .ok { cat1 with slug := pyStripS s0 }
        else .ok cat1) with
      | error e => exact hinv
      | ok cat2 =>
        obtain ⟨hid2, hpar2⟩ := upd_slug_step_ok hr2
        dsimp only
        cases hr3 : (if rawHas raw "parent_id" = true then
            match to_int_or_none (rawGet raw "parent_id") with
            | some pid =>
                if pid == cid then
                  (.error ⟨422, "parent_id cannot be equal to category_id"⟩ :
                    Except HErr Category)
                else if s.categories.any (fun c => c.id == pid) then
                  .ok { cat2 with parent_id := some pid }
                else .error ⟨422, "parent_id does not exist"⟩
            | none => .ok { cat2 with parent_id := none }
          else .ok cat2) with
        | error e => exact hinv
        | ok cat3 =>
          obtain ⟨hid3, hpar3⟩ := upd_parent_step_ok hr3
          dsimp only
          split
          · exact hinv
          · intro c hc
            dsimp only at hc
            obtain ⟨c', hc', hmap⟩ := List.mem_map.mp hc
            by_cases hcc : (c'.id == cid) = true
            · rw [if_pos hcc] at hmap
              subst hmap
              have hid : cat3.id = cid := by rw [hid3, hid2, hid1, hcat0id]
              rcases hpar3 with hp | hp | ⟨pid, hp, hpne⟩
              · rw [hp, hpar2, hpar1, hid, ← hcat0id]
                exact hinv cat0 hcat0mem
              · rw [hp]
                simp
              · rw [hp, hid]
                intro hcontra
                injection hcontra with hcontra
                rw [hcontra] at hpne
                simp at hpne
            · rw [if_neg hcc] at hmap
              subst hmap
              exact hinv c' hc'

/-- The create endpoint preserves the no-self-parent invariant: a supplied
parent must already exist, and existing ids are below the id the new
category receives. -/
theorem create_category_keeps_parentInv (s : Store) (raw : Raw)
    (hwf : CatIdsBelow s) (hinv : ParentInv s) :
    ParentInv (create_category s raw).2 := by
  unfold create_category
  cases h1 : pyOrStr? (rawGet raw "name") with
  | none => exact hinv
  | some name0 =>
    cases h2 : pyOrStr? (rawGet raw "slug") with
    | none => exact hinv
    | some slug0 =>
      dsimp only
      split
      · exact hinv
      · split
        · exact hinv
        · split
          · exact hinv
          · rename_i hmiss
            split
            · exact hinv
            · intro c hc
              dsimp only at hc
              rcases List.mem_append.mp hc with hc | hc
              · exact hinv c hc
              · rw [List.mem_singleton] at hc
                subst hc
                dsimp only
                cases hpid : to_int_or_none (rawGet raw "parent_id") with
                | none => simp
                | some pid =>
                    rw [hpid] at hmiss
                    have hany : s.categories.any (fun c => c.id == pid) = true := by
                      by_contra hno
                      rw [Bool.not_eq_true] at hno
                      exact hmiss (by simp [Option.any, hno])
                    obtain ⟨c', hc', hcid⟩ := List.any_eq_true.mp hany
                    have hceq : c'.id = pid := by simpa using hcid
                    have hlt := hwf c' hc'
                    intro heq
                    injection heq with heq
                    omega

/-- The delete endpoint preserves the no-self-parent invariant: it either
fails (store unchanged) or removes rows. -/
theorem delete_category_keeps_parentInv (s : Store) (cid : Int)
    (hinv : ParentInv s) : ParentInv (delete_category s cid).2 := by
  unfold delete_category
  split
  · exact hinv
  · intro c hc
    exact hinv c (List.mem_of_mem_filter hc)

/-- Store of the C6 counterexample and witness: one category with id 5. -/
def storeC6 : Store := ⟨[⟨5, "Shoes", "shoes", none⟩], [], 6, 1⟩

/-- C6 counterexample: an update-category request that supplies
`parent_id = 5` for category 5 — together with a non-string `name` value —
is rejected with an uncaught `AttributeError` (500) raised by
`(raw.get("name") or "").strip()` before the self-parent check, not with a
Validation error as the claim states for every such request.  The store is
still unchanged and the update never happens. -/
theorem update_category_self_parent_can_raise_500 :
    update_category storeC6 5 [("name", .jnum 1), ("parent_id", .jstr "5")] =
      (.error ⟨500, "AttributeError"⟩, storeC6) ∧
    errStatus? (update_category storeC6 5
        [("name", .jnum 1), ("parent_id", .jstr "5")]).1 ≠ some 422 :=
  ⟨rfl, by decide⟩

/-- C6 (amended): for every existing category and every update-category
request that supplies a `parent_id` parsing to the category's own id, the
update is rejected with a 422 Validation error and the store is unchanged,
provided the `name` and `slug` fields (when present and truthy) are
strings; a non-string truthy `name`/`slug` raises a generic 500 failure
first, which also leaves the store unchanged.  The invariant that
`parent_id` never equals the category's own id is preserved by every
category operation: update (any request), create (given existing ids lie
below the autoincrement counter), and delete. -/
theorem update_category_rejects_self_parent (s : Store) (cid : Int) (raw : Raw)
    (hex : s.categories.any (fun c => c.id == cid) = true)
    (hhas : rawHas raw "parent_id" = true)
    (hval : to_int_or_none (rawGet raw "parent_id") = some cid)
    (hname : strFieldOk raw "name" = true)
    (hslug : strFieldOk raw "slug" = true) :
    errStatus? (update_category s cid raw).1 = some 422 ∧
    (update_category s cid raw).2 = s ∧
    (∀ (s₁ : Store) (cid₁ : Int) (raw₁ : Raw), ParentInv s₁ →
      ParentInv (update_category s₁ cid₁ raw₁).2) ∧
    (∀ (s₁ : Store) (raw₁ : Raw), CatIdsBelow s₁ → ParentInv s₁ →
      ParentInv (create_category s₁ raw₁).2) ∧
    (∀ (s₁ : Store) (cid₁ : Int), ParentInv s₁ →
      ParentInv (delete_category s₁ cid₁).2) := by
  have hok1 : rawHas raw "name" = true → (pyOrStr? (rawGet raw "name")).isSome = true := by
    intro hb
    rw [strFieldOk, hb] at hname
    simpa using hname
  have hok2 : rawHas raw "slug" = true → (pyOrStr? (rawGet raw "slug")).isSome = true := by
    intro hb
    rw [strFieldOk, hb] at hslug
    simpa using hslug
  have hmain : errStatus? (update_category s cid raw).1 = some 422 ∧
      (update_category s cid raw).2 = s := by
    obtain ⟨cat0, hfind⟩ : ∃ cat0,
        s.categories.find? (fun c => c.id == cid) = some cat0 := by
      have hsome : (s.categories.find? (fun c => c.id == cid)).isSome := by
        rw [List.find?_isSome]
        obtain ⟨c, hc, hcc⟩ := List.any_eq_true.mp hex
        exact ⟨c, hc, hcc⟩
      exact Option.isSome_iff_exists.mp hsome
    unfold update_category
    rw [hfind]
    dsimp only
    cases hr1 : (if rawHas raw "name" = true then
        match pyOrStr? (rawGet raw "name") with
        | none => (.error ⟨500, "AttributeError"⟩ : Except HErr Category)
        | some n0 =>
            if pyStripS n0 = "" then .error ⟨422, "name is required"⟩
            else .ok { cat0 with name := pyStripS n0 }
      else .ok cat0) with
    | error e =>
        have he := upd_name_step_error hok1 hr1
        subst he
        exact ⟨rfl, rfl⟩
    | ok cat1 =>
      dsimp only
      cases hr2 : (if rawHas raw "slug" = true then
          match pyOrStr? (rawGet raw "slug") with
          | none => (.error ⟨500, "AttributeError"⟩ : Except HErr Category)
          | some s0 =>
              if pyStripS s0 = "" then .error ⟨422, "slug is required"⟩
              else .ok { cat1 with slug := pyStripS s0 }
        else .ok cat1) with
      | error e =>
          have he := upd_slug_step_error hok2 hr2
          subst he
          exact ⟨rfl, rfl⟩
      | ok cat2 =>
        dsimp only
        cases hr3 : (if rawHas raw "parent_id" = true then
            match to_int_or_none (rawGet raw "parent_id") with
            | some pid =>
                if pid == cid then
                  (.error ⟨422, "parent_id cannot be equal to category_id"⟩ :
                    Except HErr Category)
                else if s.categories.any (fun c => c.id == pid) then
                  .ok { cat2 with parent_id := some pid }
                else .error ⟨422, "parent_id does not exist"⟩
            | none => .ok { cat2 with parent_id := none }
          else .ok cat2) with
        | error e =>
            rw [upd_parent_step_self hhas hval] at hr3
            injection hr3 with hr3
            subst hr3
            exact ⟨rfl, rfl⟩
        | ok cat3 =>
            rw [upd_parent_step_self hhas hval] at hr3
            exact Except.noConfusion hr3
  exact ⟨hmain.1, hmain.2,
    fun s₁ cid₁ raw₁ h => update_category_keeps_parentInv s₁ cid₁ raw₁ h,
    fun s₁ raw₁ hw h => create_category_keeps_parentInv s₁ raw₁ hw h,
    fun s₁ cid₁ h => delete_category_keeps_parentInv s₁ cid₁ h⟩

/-- Witness for C6: `update-category(id=5, parent_id=5)` on a clean request
is rejected with 422 and the store is unchanged. -/
theorem update_category_rejects_self_parent_witness :
    errStatus? (update_category storeC6 5 [("parent_id", .jstr "5")]).1 = some 422 ∧
    (update_category storeC6 5 [("parent_id", .jstr "5")]).2 = storeC6 :=
  ⟨(update_category_rejects_self_parent storeC6 5 [("parent_id", .jstr "5")]
      (by decide) (by rfl) (by rfl) (by rfl) (by rfl)).1,
   (update_category_rejects_self_parent storeC6 5 [("parent_id", .jstr "5")]
      (by decide) (by rfl) (by rfl) (by rfl) (by rfl)).2.1⟩

end TgShop
